import Mathlib

/-!
# Verification of the cryojax scattering-potential-to-image pipeline

This file gives a shallow embedding in Lean 4 of the core numerical pipeline of
the `jax-2dtm` / `cryojax` repository:

* `simulator/_potential_representation/atom_potential.py` — atomic Gaussian-mixture
  scattering potentials and the closed-form (error-function based) voxel-grid builder,
  with its z-plane batching logic;
* `simulator/_scattering_theory/weak_phase_scattering_theory.py` — the weak-phase
  scattering theories (single specimen and linear superposition over an assembly);
* `simulator/_transfer_theory/wave_transfer_theory.py` — the astigmatic wave transfer
  function and transfer theory.

Arrays are embedded as functions (atom and Gaussian indices are `Fin`-typed, grid
indices are `ℕ`-typed with shapes carried separately, mirroring dynamically shaped
arrays), machine reals as `ℝ`, and fallible constructors/calls as `Except`.  The
external special function `jsp.special.erf` is a parameter `erf : ℝ → ℝ` of every
definition that uses it: all of the theorems below are independent of the concrete
error function, exactly as the source's algebra is.

Helpers that live in repository modules not included in the provided sources
(`cryojax/_errors.py`, `cryojax/coordinates`, `cryojax/constants`,
`_transfer_theory/common_functions.py`) are modelled from the specification and
carry a doc comment saying so.
-/

namespace Cryojax

/-- The error taxonomy of the specification (§7).  The Python code signals these
as `ValueError` / `NotImplementedError` / equinox `error_if` failures; the spec
names them `InvalidParameter`, `InvalidConfiguration` and `IncompatibleStrategy`. -/
inductive CjxError where
  | invalidParameter : CjxError
  | invalidConfiguration : CjxError
  | incompatibleStrategy : CjxError
deriving DecidableEq, Repr

/-! ## Voxel-grid builder (`atom_potential.py`) -/

/-- Modelled from the spec: `make_1d_coordinate_grid` from `cryojax.coordinates` is
not in the provided sources.  The spec (§4.2, §8) describes a rectilinear grid of
the given size and spacing centered at the origin; we model the coordinate of grid
point `i` as `(i - dim / 2) * voxelSize` (integer division), the standard centered
`arange`-style grid. -/
noncomputable def make1dCoordinateGrid (dim : ℕ) (voxelSize : ℝ) : ℕ → ℝ :=
  fun i => ((i : ℝ) - ((dim / 2 : ℕ) : ℝ)) * voxelSize

/-- `scaling = 2 * jnp.pi / jnp.sqrt(b)` from
`_evaluate_gaussian_integrals_for_all_atoms_and_intervals`. -/
noncomputable def gaussScaling (b : ℝ) : ℝ := 2 * Real.pi / Real.sqrt b

/-- `integration_kernel_1d` from
`_evaluate_gaussian_integrals_for_all_atoms_and_intervals`:
`erf(scaling * (delta + voxel_size)) - erf(scaling * delta)`. -/
noncomputable def integrationKernel1d (erf : ℝ → ℝ) (b voxelSize delta : ℝ) : ℝ :=
  erf (gaussScaling b * (delta + voxelSize)) - erf (gaussScaling b * delta)

/-- `prefactor = (4 * jnp.pi * a) / (2 * voxel_size) ** 3` from
`_evaluate_gaussian_integrals_for_all_atoms_and_intervals`. -/
noncomputable def gaussPrefactor (a voxelSize : ℝ) : ℝ :=
  4 * Real.pi * a / (2 * voxelSize) ^ 3

/-- The left voxel-edge offset `delta = (grid - voxel_size / 2) - atom_position`
from `_evaluate_gaussian_integrals_for_all_atoms_and_intervals`. -/
noncomputable def leftEdgeDelta (grid : ℕ → ℝ) (voxelSize atomPos : ℝ) (p : ℕ) : ℝ :=
  (grid p - voxelSize / 2) - atomPos

/-- The 1D Gaussian integrals along one axis, for each grid point `p`, atom `n`
and Gaussian component `i` (the `gauss_y` / `gauss_z` outputs of
`_evaluate_gaussian_integrals_for_all_atoms_and_intervals`). -/
noncomputable def gaussIntegralAxis (erf : ℝ → ℝ) {N G : ℕ} (grid : ℕ → ℝ)
    (atomPositions : Fin N → Fin 3 → ℝ) (axis : Fin 3) (b : Fin N → Fin G → ℝ)
    (voxelSize : ℝ) : ℕ → Fin N → Fin G → ℝ :=
  fun p n i =>
    integrationKernel1d erf (b n i) voxelSize
      (leftEdgeDelta grid voxelSize (atomPositions n axis) p)

/-- The x-axis 1D Gaussian integrals with the amplitude/normalization prefactor
folded in (the `prefactor * gauss_x` output of
`_evaluate_gaussian_integrals_for_all_atoms_and_intervals`). -/
noncomputable def gaussIntegralXTimesPrefactor (erf : ℝ → ℝ) {N G : ℕ} (grid : ℕ → ℝ)
    (atomPositions : Fin N → Fin 3 → ℝ) (a b : Fin N → Fin G → ℝ)
    (voxelSize : ℝ) : ℕ → Fin N → Fin G → ℝ :=
  fun p n i =>
    gaussPrefactor (a n i) voxelSize *
      gaussIntegralAxis erf grid atomPositions 0 b voxelSize p n i

/-- `_evaluate_gaussian_potential_at_z_plane`: the value of the voxel grid at
row `y`, column `x` of one z-plane.  The source forms `gauss_yz` as the
elementwise product of the y-integrals and the z-plane row of z-integrals,
multiplies it with the (prefactor-carrying) x-integrals as a matrix product over
the atom index, and sums over the Gaussian-component index. -/
noncomputable def evaluateGaussianPotentialAtZPlane {N G : ℕ}
    (gaussX gaussY : ℕ → Fin N → Fin G → ℝ) (gaussZrow : Fin N → Fin G → ℝ)
    (y x : ℕ) : ℝ :=
  ∑ i : Fin G, ∑ n : Fin N, gaussY y n i * gaussZrow n i * gaussX x n i

/-- The voxel value at indices `(z, y, x)` computed by composing
`_evaluate_gaussian_integrals_for_all_atoms_and_intervals` with
`_evaluate_gaussian_potential_at_z_plane` on the centered coordinate grids,
exactly the per-plane computation of `_build_real_space_voxel_potential_from_atoms`
(`shape` is `(z_dim, y_dim, x_dim)` as in the source). -/
noncomputable def voxelPotentialPlane (erf : ℝ → ℝ) (shape : ℕ × ℕ × ℕ)
    (voxelSize : ℝ) {N G : ℕ} (atomPositions : Fin N → Fin 3 → ℝ)
    (a b : Fin N → Fin G → ℝ) : ℕ → ℕ → ℕ → ℝ :=
  fun z y x =>
    evaluateGaussianPotentialAtZPlane
      (gaussIntegralXTimesPrefactor erf (make1dCoordinateGrid shape.2.2 voxelSize)
        atomPositions a b voxelSize)
      (gaussIntegralAxis erf (make1dCoordinateGrid shape.2.1 voxelSize)
        atomPositions 1 b voxelSize)
      (fun n i =>
        gaussIntegralAxis erf (make1dCoordinateGrid shape.1 voxelSize)
          atomPositions 2 b voxelSize z n i)
      y x

/-- `_build_real_space_voxel_potential_from_atoms`.  The source first raises for
`batch_size > z_dim`; `batch_size == 1` maps the plane computation over z;
`batch_size > 1` reshapes the first `z_dim - z_dim % batch_size` planes into
`(z_dim // batch_size, batch_size)` batches (so output index `z` reads plane
`batch_size * (z / batch_size) + z % batch_size`), flattens back, and appends
the remaining partial batch of planes unchanged; any other batch size raises. -/
noncomputable def buildRealSpaceVoxelPotentialFromAtoms (erf : ℝ → ℝ)
    (shape : ℕ × ℕ × ℕ) (voxelSize : ℝ) {N G : ℕ}
    (atomPositions : Fin N → Fin 3 → ℝ) (a b : Fin N → Fin G → ℝ)
    (batchSize : ℕ) : Except CjxError (ℕ → ℕ → ℕ → ℝ) :=
  if batchSize > shape.1 then .error .invalidConfiguration
  else if batchSize = 1 then
    .ok (voxelPotentialPlane erf shape voxelSize atomPositions a b)
  else if 1 < batchSize then
    .ok (fun z y x =>
      if z < shape.1 - shape.1 % batchSize then
        voxelPotentialPlane erf shape voxelSize atomPositions a b
          (batchSize * (z / batchSize) + z % batchSize) y x
      else voxelPotentialPlane erf shape voxelSize atomPositions a b z y x)
  else .error .invalidConfiguration

/-! ## Atomic potential representations (`atom_potential.py`) -/

/-- `GaussianMixtureAtomicPotential`: positions, amplitudes and widths for `N`
atoms with `G` Gaussian components per atom. -/
structure GaussianMixtureAtomicPotential (N G : ℕ) where
  atomPositions : Fin N → Fin 3 → ℝ
  gaussianAmplitudes : Fin N → Fin G → ℝ
  gaussianWidths : Fin N → Fin G → ℝ

open Classical in
/-- `GaussianMixtureAtomicPotential.__init__`.  The widths pass through
`error_if_not_positive` (modelled from the spec: `cryojax/_errors.py` is not in
the provided sources; the spec §4.1/§7 says construction with any non-positive
width fails with `InvalidParameter`). -/
noncomputable def GaussianMixtureAtomicPotential.make {N G : ℕ}
    (atomPositions : Fin N → Fin 3 → ℝ) (gaussianAmplitudes : Fin N → Fin G → ℝ)
    (gaussianWidths : Fin N → Fin G → ℝ) :
    Except CjxError (GaussianMixtureAtomicPotential N G) :=
  if ∀ (n : Fin N) (i : Fin G), 0 < gaussianWidths n i then
    .ok ⟨atomPositions, gaussianAmplitudes, gaussianWidths⟩
  else .error .invalidParameter

/-- `GaussianMixtureAtomicPotential.as_real_voxel_grid`. -/
noncomputable def GaussianMixtureAtomicPotential.asRealVoxelGrid (erf : ℝ → ℝ)
    {N G : ℕ} (P : GaussianMixtureAtomicPotential N G) (shape : ℕ × ℕ × ℕ)
    (voxelSize : ℝ) (batchSize : ℕ) : Except CjxError (ℕ → ℕ → ℕ → ℝ) :=
  buildRealSpaceVoxelPotentialFromAtoms erf shape voxelSize P.atomPositions
    P.gaussianAmplitudes P.gaussianWidths batchSize

/-- `PengAtomicPotential`: positions, the five tabulated scattering-factor
amplitude/width parameters per atom, and optional per-atom B-factors. -/
structure PengAtomicPotential (N : ℕ) where
  atomPositions : Fin N → Fin 3 → ℝ
  scatteringFactorA : Fin N → Fin 5 → ℝ
  scatteringFactorB : Fin N → Fin 5 → ℝ
  bFactors : Option (Fin N → ℝ)

open Classical in
/-- `PengAtomicPotential.__init__`.  The element-parameter table lookup
(`get_tabulated_scattering_factor_parameters`, not in the provided sources) is
modelled as application of explicit table functions to the atom identities.
The B-factors, when present, pass through `error_if_negative` (modelled from
the spec: negative B-factors fail with `InvalidParameter` at construction). -/
noncomputable def PengAtomicPotential.make {N : ℕ}
    (atomPositions : Fin N → Fin 3 → ℝ) (atomIdentities : Fin N → ℕ)
    (tableA tableB : ℕ → Fin 5 → ℝ) (bFactors : Option (Fin N → ℝ)) :
    Except CjxError (PengAtomicPotential N) :=
  match bFactors with
  | none =>
      .ok ⟨atomPositions, fun n => tableA (atomIdentities n),
        fun n => tableB (atomIdentities n), none⟩
  | some B =>
      if ∀ n : Fin N, 0 ≤ B n then
        .ok ⟨atomPositions, fun n => tableA (atomIdentities n),
          fun n => tableB (atomIdentities n), some B⟩
      else .error .invalidParameter

/-- `PengAtomicPotential.as_real_voxel_grid`: without B-factors the Gaussian
widths are the tabulated widths; with B-factors each atom's B-factor is added
to every Gaussian component of that atom. -/
noncomputable def PengAtomicPotential.asRealVoxelGrid (erf : ℝ → ℝ) {N : ℕ}
    (P : PengAtomicPotential N) (shape : ℕ × ℕ × ℕ) (voxelSize : ℝ)
    (batchSize : ℕ) : Except CjxError (ℕ → ℕ → ℕ → ℝ) :=
  buildRealSpaceVoxelPotentialFromAtoms erf shape voxelSize P.atomPositions
    P.scatteringFactorA
    (match P.bFactors with
     | none => P.scatteringFactorB
     | some B => fun n i => P.scatteringFactorB n i + B n)
    batchSize

/-! ## Instrument configuration, poses, integrators (abstract collaborators)

The scattering theories are polymorphic over the potential representation, the
pose parameterization and the potential integrator (abstract base classes in the
source).  We embed them as records whose method slots are function fields; the
weak-phase pipeline only composes these functions. -/

/-- The slice of `InstrumentConfig` that the weak-phase pipeline reads: the
padded shape, the wavelength, and the two derived padded frequency grids
(the half-space grid used for translational phase shifts and the full grid
used by the wave transfer theory).  Frequency grids are function fields keyed
by array indices, as the pipeline treats them as read-only data. -/
structure InstrumentConfig where
  paddedShape : ℕ × ℕ
  wavelengthInAngstroms : ℝ
  paddedFrequencyGrid : ℕ → ℕ → ℝ × ℝ
  paddedFullFrequencyGrid : ℕ → ℕ → ℝ × ℝ

/-- The slice of `AbstractPose` that the weak-phase pipeline reads: the
out-of-plane offset `offset_z_in_angstroms` and the in-plane translational
phase-shift method `compute_shifts` (a function of a frequency-grid entry). -/
structure Pose where
  offsetZInAngstroms : ℝ
  computeShifts : ℝ × ℝ → ℂ

/-- The slice of `AbstractStructuralEnsemble` that the weak-phase pipeline
reads: a pose and the lab-frame potential (`get_potential_in_lab_frame`),
abstract in the potential representation `P`. -/
structure StructuralEnsemble (P : Type) where
  pose : Pose
  potentialInLabFrame : P

/-- The slice of `AbstractPotentialIntegrator` that the weak-phase pipeline
reads: the `is_integration_complex` flag and the
`compute_fourier_integrated_potential` method producing a Fourier-space field
indexed by `(y, x)`. -/
structure PotentialIntegrator (P : Type) where
  isIntegrationComplex : Bool
  computeFourierIntegratedPotential : P → InstrumentConfig → ℕ → ℕ → ℂ

/-- The `ContrastTransferTheory` collaborator of the weak-phase scattering
theories: calling it on a spectrum, a config and a defocus offset yields the
detector-plane spectrum.  The Python call signature defaults the defocus
offset to `0.0`; the embedding passes it explicitly. -/
structure ContrastTransferTheory where
  apply : (ℕ → ℕ → ℂ) → InstrumentConfig → ℝ → ℕ → ℕ → ℂ

/-- `convert_units_of_integrated_potential` (the source file
`_scattering_theory/common_functions.py` provides this unit conversion as
`integrated_potential * wavelength / (4π)`). -/
noncomputable def convertUnitsOfIntegratedPotential (integratedPotential : ℂ)
    (wavelengthInAngstroms : ℝ) : ℂ :=
  integratedPotential * (wavelengthInAngstroms : ℂ) / (4 * Real.pi)

/-- `_compute_phase_shift_spectrum_from_scattering_potential`: integrate the
lab-frame potential, convert units by `wavelength / (4π)`, and multiply the
translational phase shifts computed from the pose on the padded frequency
grid. -/
noncomputable def computePhaseShiftSpectrumFromScatteringPotential {P : Type}
    (structuralEnsemble : StructuralEnsemble P)
    (potentialIntegrator : PotentialIntegrator P)
    (instrumentConfig : InstrumentConfig) : ℕ → ℕ → ℂ :=
  fun y x =>
    convertUnitsOfIntegratedPotential
      (potentialIntegrator.computeFourierIntegratedPotential
        structuralEnsemble.potentialInLabFrame instrumentConfig y x)
      instrumentConfig.wavelengthInAngstroms *
    structuralEnsemble.pose.computeShifts (instrumentConfig.paddedFrequencyGrid y x)

/-! ## Weak-phase scattering theories (`weak_phase_scattering_theory.py`)

The claims under verification never supply an `rng_key`, so the solvent/ice
branch (skipped entirely when `rng_key is None`) is not part of the embedding.
-/

/-- `WeakPhaseScatteringTheory` (single specimen). -/
structure WeakPhaseScatteringTheory (P : Type) where
  structuralEnsemble : StructuralEnsemble P
  potentialIntegrator : PotentialIntegrator P
  transferTheory : ContrastTransferTheory

/-- `WeakPhaseScatteringTheory.__init__` followed by `__check_init__`: if the
integrator reports `is_integration_complex`, construction raises (the spec
names this `IncompatibleStrategy`); otherwise the object is built. -/
def WeakPhaseScatteringTheory.make {P : Type}
    (structuralEnsemble : StructuralEnsemble P)
    (potentialIntegrator : PotentialIntegrator P)
    (transferTheory : ContrastTransferTheory) :
    Except CjxError (WeakPhaseScatteringTheory P) :=
  if potentialIntegrator.isIntegrationComplex then .error .incompatibleStrategy
  else .ok ⟨structuralEnsemble, potentialIntegrator, transferTheory⟩

/-- `WeakPhaseScatteringTheory.compute_object_spectrum_at_exit_plane`
(no-randomness path). -/
noncomputable def WeakPhaseScatteringTheory.computeObjectSpectrumAtExitPlane
    {P : Type} (T : WeakPhaseScatteringTheory P)
    (instrumentConfig : InstrumentConfig) : ℕ → ℕ → ℂ :=
  computePhaseShiftSpectrumFromScatteringPotential T.structuralEnsemble
    T.potentialIntegrator instrumentConfig

/-- `WeakPhaseScatteringTheory.compute_contrast_spectrum_at_detector_plane`
(no-randomness path): the transfer theory is applied with
`defocus_offset = structural_ensemble.pose.offset_z_in_angstroms`. -/
noncomputable def WeakPhaseScatteringTheory.computeContrastSpectrumAtDetectorPlane
    {P : Type} (T : WeakPhaseScatteringTheory P)
    (instrumentConfig : InstrumentConfig) : ℕ → ℕ → ℂ :=
  T.transferTheory.apply (T.computeObjectSpectrumAtExitPlane instrumentConfig)
    instrumentConfig T.structuralEnsemble.pose.offsetZInAngstroms

/-- `LinearSuperpositionScatteringTheory`: its `assembly.subunits` batch is
embedded as `K` structural ensembles sharing the base potential. -/
structure LinearSuperpositionScatteringTheory (P : Type) (K : ℕ) where
  assemblySubunits : Fin K → StructuralEnsemble P
  potentialIntegrator : PotentialIntegrator P
  transferTheory : ContrastTransferTheory

/-- `LinearSuperpositionScatteringTheory.__init__`: the source class defines no
`__check_init__`, so construction always succeeds — in particular it performs
no check of `potential_integrator.is_integration_complex`. -/
def LinearSuperpositionScatteringTheory.make {P : Type} {K : ℕ}
    (assemblySubunits : Fin K → StructuralEnsemble P)
    (potentialIntegrator : PotentialIntegrator P)
    (transferTheory : ContrastTransferTheory) :
    Except CjxError (LinearSuperpositionScatteringTheory P K) :=
  .ok ⟨assemblySubunits, potentialIntegrator, transferTheory⟩

/-- `LinearSuperpositionScatteringTheory.compute_object_spectrum_at_exit_plane`
(no-randomness path): map the per-subunit phase-shift spectrum over the batch
and sum over the batch axis. -/
noncomputable def LinearSuperpositionScatteringTheory.computeObjectSpectrumAtExitPlane
    {P : Type} {K : ℕ} (T : LinearSuperpositionScatteringTheory P K)
    (instrumentConfig : InstrumentConfig) : ℕ → ℕ → ℂ :=
  fun y x =>
    ∑ k : Fin K,
      computePhaseShiftSpectrumFromScatteringPotential (T.assemblySubunits k)
        T.potentialIntegrator instrumentConfig y x

/-- `LinearSuperpositionScatteringTheory.compute_contrast_spectrum_at_detector_plane`
(no-randomness path): each per-subunit spectrum is passed through the transfer
theory with the *default* defocus offset `0.0` (the source's inner
`compute_image` calls `self.transfer_theory(…)` with no `defocus_offset`
argument), then summed over the batch axis. -/
noncomputable def LinearSuperpositionScatteringTheory.computeContrastSpectrumAtDetectorPlane
    {P : Type} {K : ℕ} (T : LinearSuperpositionScatteringTheory P K)
    (instrumentConfig : InstrumentConfig) : ℕ → ℕ → ℂ :=
  fun y x =>
    ∑ k : Fin K,
      T.transferTheory.apply
        (computePhaseShiftSpectrumFromScatteringPotential (T.assemblySubunits k)
          T.potentialIntegrator instrumentConfig)
        instrumentConfig 0 y x

/-- The functional update `A.at[i0, j0].add(v)` on a 2D array. -/
def addAtIndex (A : ℕ → ℕ → ℂ) (i0 j0 : ℕ) (v : ℂ) : ℕ → ℕ → ℂ :=
  fun i j => if i = i0 ∧ j = j0 then A i j + v else A i j

/-- `AbstractWeakPhaseScatteringTheory.compute_intensity_spectrum_at_detector_plane`,
as a function of the contrast spectrum the theory computes:
`(2 * contrast).at[0, 0].add(1.0 * N1 * N2)` with `(N1, N2)` the padded shape. -/
noncomputable def computeIntensitySpectrumFromContrast
    (instrumentConfig : InstrumentConfig) (contrast : ℕ → ℕ → ℂ) : ℕ → ℕ → ℂ :=
  addAtIndex (fun i j => 2 * contrast i j) 0 0
    ((instrumentConfig.paddedShape.1 : ℂ) * (instrumentConfig.paddedShape.2 : ℂ))

/-- The inherited intensity method on `WeakPhaseScatteringTheory`. -/
noncomputable def WeakPhaseScatteringTheory.computeIntensitySpectrumAtDetectorPlane
    {P : Type} (T : WeakPhaseScatteringTheory P)
    (instrumentConfig : InstrumentConfig) : ℕ → ℕ → ℂ :=
  computeIntensitySpectrumFromContrast instrumentConfig
    (T.computeContrastSpectrumAtDetectorPlane instrumentConfig)

/-- The inherited intensity method on `LinearSuperpositionScatteringTheory`. -/
noncomputable def LinearSuperpositionScatteringTheory.computeIntensitySpectrumAtDetectorPlane
    {P : Type} {K : ℕ} (T : LinearSuperpositionScatteringTheory P K)
    (instrumentConfig : InstrumentConfig) : ℕ → ℕ → ℂ :=
  computeIntensitySpectrumFromContrast instrumentConfig
    (T.computeContrastSpectrumAtDetectorPlane instrumentConfig)

/-! ## Wave transfer theory (`wave_transfer_theory.py`) -/

/-- `WaveTransferFunction` parameters. -/
structure WaveTransferFunction where
  defocusInAngstroms : ℝ
  astigmatismInAngstroms : ℝ
  astigmatismAngle : ℝ
  voltageInKilovolts : ℝ
  sphericalAberrationInMm : ℝ

/-- `WaveTransferFunction.__init__`: the defocus passes through
`error_if_not_positive` and the spherical aberration through
`error_if_negative` (modelled from the spec: `cryojax/_errors.py` is not in the
provided sources; §4.5 says defocus must be strictly positive and spherical
aberration non-negative, violations failing with `InvalidParameter` at
construction); astigmatism, its angle and the voltage are unchecked. -/
noncomputable def WaveTransferFunction.make
    (defocusInAngstroms astigmatismInAngstroms astigmatismAngle
      voltageInKilovolts sphericalAberrationInMm : ℝ) :
    Except CjxError WaveTransferFunction :=
  if 0 < defocusInAngstroms then
    if 0 ≤ sphericalAberrationInMm then
      .ok ⟨defocusInAngstroms, astigmatismInAngstroms, astigmatismAngle,
        voltageInKilovolts, sphericalAberrationInMm⟩
    else .error .invalidParameter
  else .error .invalidParameter

/-- Modelled from the spec: `convert_keV_to_angstroms` from `cryojax.constants`
is not in the provided sources.  It derives the relativistic electron
wavelength (a real number) from the accelerating voltage; the standard
closed form `12.2643 / sqrt(V·1000 · (1 + 0.97845e-6 · V·1000))` is used. -/
noncomputable def convertKeVToAngstroms (voltageInKilovolts : ℝ) : ℝ :=
  12.2643 /
    Real.sqrt (voltageInKilovolts * 1000 *
      (1 + 0.97845e-6 * (voltageInKilovolts * 1000)))

/-- Modelled from the spec: `compute_phase_shifts` from
`_transfer_theory/common_functions.py` is not in the provided sources.  Per
§4.5 it computes a *real-valued* aberration phase from the spatial frequency
using the two defocus axes at the astigmatism angle, the spherical aberration
and the wavelength: with the frequency rotated into the astigmatism frame,
`phase = π·λ·(Δf₁·k₁'² + Δf₂·k₂'²) − (π/2)·Cs·λ³·|k|⁴ + phase_shift`. -/
noncomputable def computePhaseShifts (frequency : ℝ × ℝ)
    (defocusAxis1 defocusAxis2 astigmatismAngle wavelength
      sphericalAberration phaseShift : ℝ) : ℝ :=
  let k1 := Real.cos astigmatismAngle * frequency.1 +
    Real.sin astigmatismAngle * frequency.2
  let k2 := -Real.sin astigmatismAngle * frequency.1 +
    Real.cos astigmatismAngle * frequency.2
  let kSq := frequency.1 ^ 2 + frequency.2 ^ 2
  Real.pi * wavelength * (defocusAxis1 * k1 ^ 2 + defocusAxis2 * k2 ^ 2) -
    Real.pi / 2 * sphericalAberration * wavelength ^ 3 * kSq ^ 2 + phaseShift

/-- `WaveTransferFunction.__call__`: convert the astigmatism angle to radians
and the spherical aberration to ångströms, take the wavelength from the
argument when given (else derive it from the stored voltage), offset both
defocus axes by `defocus_offset`, compute the real aberration phase, and
return `exp(i · phase)`. -/
noncomputable def WaveTransferFunction.call (wtf : WaveTransferFunction)
    (frequency : ℝ × ℝ) (wavelengthInAngstroms : Option ℝ)
    (defocusOffset : ℝ) : ℂ :=
  let astigmatismAngle := wtf.astigmatismAngle * Real.pi / 180
  let sphericalAberrationInAngstroms := wtf.sphericalAberrationInMm * 10 ^ 7
  let wavelength :=
    match wavelengthInAngstroms with
    | none => convertKeVToAngstroms wtf.voltageInKilovolts
    | some w => w
  let defocusAxis1 := wtf.defocusInAngstroms + defocusOffset
  let defocusAxis2 :=
    wtf.defocusInAngstroms + wtf.astigmatismInAngstroms + defocusOffset
  Complex.exp (Complex.I *
    (computePhaseShifts frequency defocusAxis1 defocusAxis2 astigmatismAngle
      wavelength sphericalAberrationInAngstroms 0 : ℝ))

/-- `WaveTransferTheory`. -/
structure WaveTransferTheory where
  wtf : WaveTransferFunction

/-- `WaveTransferTheory.__call__`: evaluate the wave transfer function on the
padded full frequency grid with the config's wavelength and the given defocus
offset, and multiply it elementwise onto the exit-plane wavefunction. -/
noncomputable def WaveTransferTheory.call (T : WaveTransferTheory)
    (fourierWavefunctionAtExitPlane : ℕ → ℕ → ℂ)
    (instrumentConfig : InstrumentConfig) (defocusOffset : ℝ) : ℕ → ℕ → ℂ :=
  fun y x =>
    T.wtf.call (instrumentConfig.paddedFullFrequencyGrid y x)
        (some instrumentConfig.wavelengthInAngstroms) defocusOffset *
      fourierWavefunctionAtExitPlane y x

/-! ## The specification's closed-form voxel average

`specAxisFactor` and `specClosedFormVoxelAverage` transcribe the closed-form
expression asserted by the specification (§4.2 and the
`PengAtomicPotential.as_real_voxel_grid` doc formula): the voxel value is
`4π/(2Δ)³` times the sum over atoms and Gaussian components of the amplitude
times the product over the three axes of
`erf((r − r⁰ + Δ/2)·2π/√b_eff) − erf((r − r⁰ − Δ/2)·2π/√b_eff)`.
They are written from the specification's words, to be compared against the
source-derived `voxelPotentialPlane`. -/

/-- One axis factor of the specification's closed-form voxel average. -/
noncomputable def specAxisFactor (erf : ℝ → ℝ) (r r0 voxelSize beff : ℝ) : ℝ :=
  erf ((r - r0 + voxelSize / 2) * (2 * Real.pi / Real.sqrt beff)) -
    erf ((r - r0 - voxelSize / 2) * (2 * Real.pi / Real.sqrt beff))

/-- The specification's closed-form voxel average at voxel `(z, y, x)`, for
effective widths `beff`. -/
noncomputable def specClosedFormVoxelAverage (erf : ℝ → ℝ) (shape : ℕ × ℕ × ℕ)
    (voxelSize : ℝ) {N G : ℕ} (atomPositions : Fin N → Fin 3 → ℝ)
    (a beff : Fin N → Fin G → ℝ) : ℕ → ℕ → ℕ → ℝ :=
  fun z y x =>
    4 * Real.pi / (2 * voxelSize) ^ 3 *
      ∑ n : Fin N, ∑ i : Fin G,
        a n i *
          (specAxisFactor erf (make1dCoordinateGrid shape.2.2 voxelSize x)
              (atomPositions n 0) voxelSize (beff n i) *
            specAxisFactor erf (make1dCoordinateGrid shape.2.1 voxelSize y)
              (atomPositions n 1) voxelSize (beff n i) *
            specAxisFactor erf (make1dCoordinateGrid shape.1 voxelSize z)
              (atomPositions n 2) voxelSize (beff n i))

/-! ## Helper lemmas -/

/-- For a batch size in range, the builder succeeds and returns exactly the
per-plane computation, independent of the batching: the reshape round trip
sends output index `z` to plane `batchSize * (z / batchSize) + z % batchSize = z`,
and the appended partial batch holds the remaining planes unchanged. -/
lemma buildRealSpaceVoxelPotentialFromAtoms_ok (erf : ℝ → ℝ)
    (shape : ℕ × ℕ × ℕ) (voxelSize : ℝ) {N G : ℕ}
    (atomPositions : Fin N → Fin 3 → ℝ) (a b : Fin N → Fin G → ℝ)
    {batchSize : ℕ} (h1 : 1 ≤ batchSize) (h2 : batchSize ≤ shape.1) :
    buildRealSpaceVoxelPotentialFromAtoms erf shape voxelSize atomPositions a b
        batchSize
      = .ok (voxelPotentialPlane erf shape voxelSize atomPositions a b) := by
  unfold buildRealSpaceVoxelPotentialFromAtoms
  rw [if_neg (by omega)]
  rcases eq_or_lt_of_le h1 with h | h
  · rw [if_pos h.symm]
  · rw [if_neg (by omega), if_pos h]
    congr 1
    funext z y x
    by_cases hz : z < shape.1 - shape.1 % batchSize
    · rw [if_pos hz, Nat.div_add_mod]
    · rw [if_neg hz]

/-- For a batch size out of range the builder fails with
`invalidConfiguration`. -/
lemma buildRealSpaceVoxelPotentialFromAtoms_error (erf : ℝ → ℝ)
    (shape : ℕ × ℕ × ℕ) (voxelSize : ℝ) {N G : ℕ}
    (atomPositions : Fin N → Fin 3 → ℝ) (a b : Fin N → Fin G → ℝ)
    {batchSize : ℕ} (h : batchSize = 0 ∨ shape.1 < batchSize) :
    buildRealSpaceVoxelPotentialFromAtoms erf shape voxelSize atomPositions a b
        batchSize
      = .error .invalidConfiguration := by
  unfold buildRealSpaceVoxelPotentialFromAtoms
  rcases h with h | h
  · subst h
    rw [if_neg (by omega), if_neg (by omega), if_neg (by omega)]
  · rw [if_pos h]

/-- Rewriting one 1D integration kernel from the source's form
(`erf(s·(δ + Δ)) − erf(s·δ)` at the left-edge offset `δ = (r − Δ/2) − r⁰`) to
the specification's form. -/
lemma erf_kernel_shift (erf : ℝ → ℝ) (s r r0 voxelSize : ℝ) :
    erf (s * (((r - voxelSize / 2) - r0) + voxelSize)) -
        erf (s * ((r - voxelSize / 2) - r0))
      = erf ((r - r0 + voxelSize / 2) * s) - erf ((r - r0 - voxelSize / 2) * s) := by
  rw [show s * (((r - voxelSize / 2) - r0) + voxelSize)
        = (r - r0 + voxelSize / 2) * s by ring,
    show s * ((r - voxelSize / 2) - r0) = (r - r0 - voxelSize / 2) * s by ring]

/-- The source's per-plane computation agrees with the specification's
closed-form voxel average (with `beff` the widths handed to the builder). -/
lemma voxelPotentialPlane_eq_closed_form (erf : ℝ → ℝ) (shape : ℕ × ℕ × ℕ)
    (voxelSize : ℝ) {N G : ℕ} (atomPositions : Fin N → Fin 3 → ℝ)
    (a b : Fin N → Fin G → ℝ) (z y x : ℕ) :
    voxelPotentialPlane erf shape voxelSize atomPositions a b z y x
      = specClosedFormVoxelAverage erf shape voxelSize atomPositions a b z y x := by
  simp only [voxelPotentialPlane, specClosedFormVoxelAverage,
    evaluateGaussianPotentialAtZPlane, gaussIntegralXTimesPrefactor,
    gaussIntegralAxis, integrationKernel1d, gaussScaling, gaussPrefactor,
    leftEdgeDelta, specAxisFactor]
  rw [Finset.sum_comm, Finset.mul_sum]
  refine Finset.sum_congr rfl fun n _ => ?_
  rw [Finset.mul_sum]
  refine Finset.sum_congr rfl fun i _ => ?_
  rw [erf_kernel_shift, erf_kernel_shift, erf_kernel_shift]
  ring

/-! ## Claim theorems -/

/-- Claim C1: for every atomic potential with strictly positive Gaussian widths,
every grid shape and voxel size `Δ > 0`, and every valid batch size, each voxel
value returned by `as_real_voxel_grid` equals the closed-form voxel average
`4π/(2Δ)³ · ∑ atoms ∑ components a_i · ∏ axes [erf((r − r⁰ + Δ/2)·2π/√b_eff) −
erf((r − r⁰ − Δ/2)·2π/√b_eff)]`, where `b_eff` is the given width for the
Gaussian-mixture variant, the tabulated width for the Peng variant without
B-factors, and the tabulated width plus that atom's B-factor (applied to every
Gaussian component) for the Peng variant with B-factors. -/
theorem c1_voxel_values_are_closed_form_averages (erf : ℝ → ℝ)
    (shape : ℕ × ℕ × ℕ) (voxelSize : ℝ) (batchSize : ℕ)
    (hv : 0 < voxelSize) (hbs1 : 1 ≤ batchSize) (hbs2 : batchSize ≤ shape.1) :
    (∀ (N G : ℕ) (P : GaussianMixtureAtomicPotential N G),
      (∀ n i, 0 < P.gaussianWidths n i) →
      ∀ g, P.asRealVoxelGrid erf shape voxelSize batchSize = .ok g →
        ∀ z y x, g z y x = specClosedFormVoxelAverage erf shape voxelSize
          P.atomPositions P.gaussianAmplitudes P.gaussianWidths z y x)
    ∧ (∀ (M : ℕ) (Q : PengAtomicPotential M),
      (∀ n i, 0 < Q.scatteringFactorB n i) → Q.bFactors = none →
      ∀ g, Q.asRealVoxelGrid erf shape voxelSize batchSize = .ok g →
        ∀ z y x, g z y x = specClosedFormVoxelAverage erf shape voxelSize
          Q.atomPositions Q.scatteringFactorA Q.scatteringFactorB z y x)
    ∧ (∀ (M : ℕ) (R : PengAtomicPotential M) (B : Fin M → ℝ),
      (∀ n i, 0 < R.scatteringFactorB n i) → (∀ n, 0 ≤ B n) →
      R.bFactors = some B →
      ∀ g, R.asRealVoxelGrid erf shape voxelSize batchSize = .ok g →
        ∀ z y x, g z y x = specClosedFormVoxelAverage erf shape voxelSize
          R.atomPositions R.scatteringFactorA
          (fun n i => R.scatteringFactorB n i + B n) z y x) := by
  refine ⟨fun N G P _ g hg z y x => ?_, fun M Q _ hQ g hg z y x => ?_,
    fun M R B _ _ hR g hg z y x => ?_⟩
  · unfold GaussianMixtureAtomicPotential.asRealVoxelGrid at hg
    rw [buildRealSpaceVoxelPotentialFromAtoms_ok erf shape voxelSize
      P.atomPositions P.gaussianAmplitudes P.gaussianWidths hbs1 hbs2] at hg
    injection hg with hg2
    rw [← hg2]
    exact voxelPotentialPlane_eq_closed_form erf shape voxelSize
      P.atomPositions P.gaussianAmplitudes P.gaussianWidths z y x
  · unfold PengAtomicPotential.asRealVoxelGrid at hg
    rw [hQ] at hg
    rw [buildRealSpaceVoxelPotentialFromAtoms_ok erf shape voxelSize
      Q.atomPositions Q.scatteringFactorA Q.scatteringFactorB hbs1 hbs2] at hg
    injection hg with hg2
    rw [← hg2]
    exact voxelPotentialPlane_eq_closed_form erf shape voxelSize
      Q.atomPositions Q.scatteringFactorA Q.scatteringFactorB z y x
  · unfold PengAtomicPotential.asRealVoxelGrid at hg
    rw [hR] at hg
    rw [buildRealSpaceVoxelPotentialFromAtoms_ok erf shape voxelSize
      R.atomPositions R.scatteringFactorA
      (fun n i => R.scatteringFactorB n i + B n) hbs1 hbs2] at hg
    injection hg with hg2
    rw [← hg2]
    exact voxelPotentialPlane_eq_closed_form erf shape voxelSize
      R.atomPositions R.scatteringFactorA
      (fun n i => R.scatteringFactorB n i + B n) z y x

/-- A concrete one-atom, one-component Gaussian-mixture potential (atom at the
origin, amplitude 1, width 1), shared by the concrete-input witnesses. -/
noncomputable def witnessMixturePotential : GaussianMixtureAtomicPotential 1 1 :=
  ⟨fun _ _ => 0, fun _ _ => 1, fun _ _ => 1⟩

/-- Witness for C1 at a concrete input: one atom at the origin with one Gaussian
component of amplitude and width `1`, a `(1,1,1)` grid of voxel size `1`, batch
size `1`, and the identity standing in for the abstract error function. -/
theorem c1_witness :
    voxelPotentialPlane (fun t => t) (1, 1, 1) 1
        witnessMixturePotential.atomPositions
        witnessMixturePotential.gaussianAmplitudes
        witnessMixturePotential.gaussianWidths 0 0 0
      = specClosedFormVoxelAverage (fun t => t) (1, 1, 1) 1
        witnessMixturePotential.atomPositions
        witnessMixturePotential.gaussianAmplitudes
        witnessMixturePotential.gaussianWidths 0 0 0 :=
  (c1_voxel_values_are_closed_form_averages (fun t => t) (1, 1, 1) 1 1
      (by norm_num) (by norm_num) (by norm_num)).1 1 1
    witnessMixturePotential (fun _ _ => by norm_num [witnessMixturePotential]) _
    (buildRealSpaceVoxelPotentialFromAtoms_ok (fun t => t) (1, 1, 1) 1
      witnessMixturePotential.atomPositions
      witnessMixturePotential.gaussianAmplitudes
      witnessMixturePotential.gaussianWidths (by norm_num) (by norm_num))
    0 0 0

/-- Claim C2: for every atomic potential and every batch size in `[1, Z]`,
`as_real_voxel_grid` produces the same voxel grid as with batch size `1`; in
particular when `Z` is not divisible by the batch size the final partial batch
of z-planes still appears in the output, with no truncation. -/
theorem c2_batch_size_invariance (erf : ℝ → ℝ) (shape : ℕ × ℕ × ℕ)
    (voxelSize : ℝ) (batchSize : ℕ) (hbs1 : 1 ≤ batchSize)
    (hbs2 : batchSize ≤ shape.1) :
    (∀ (N G : ℕ) (P : GaussianMixtureAtomicPotential N G),
      P.asRealVoxelGrid erf shape voxelSize batchSize
        = P.asRealVoxelGrid erf shape voxelSize 1)
    ∧ (∀ (M : ℕ) (Q : PengAtomicPotential M),
      Q.asRealVoxelGrid erf shape voxelSize batchSize
        = Q.asRealVoxelGrid erf shape voxelSize 1) := by
  have h1 : (1 : ℕ) ≤ shape.1 := hbs1.trans hbs2
  constructor
  · intro N G P
    unfold GaussianMixtureAtomicPotential.asRealVoxelGrid
    rw [buildRealSpaceVoxelPotentialFromAtoms_ok erf shape voxelSize
        P.atomPositions P.gaussianAmplitudes P.gaussianWidths hbs1 hbs2,
      buildRealSpaceVoxelPotentialFromAtoms_ok erf shape voxelSize
        P.atomPositions P.gaussianAmplitudes P.gaussianWidths (le_refl 1) h1]
  · intro M Q
    unfold PengAtomicPotential.asRealVoxelGrid
    rw [buildRealSpaceVoxelPotentialFromAtoms_ok erf shape voxelSize
        Q.atomPositions Q.scatteringFactorA _ hbs1 hbs2,
      buildRealSpaceVoxelPotentialFromAtoms_ok erf shape voxelSize
        Q.atomPositions Q.scatteringFactorA _ (le_refl 1) h1]

/-- Witness for C2 at a concrete input: a 3-plane grid with batch size 2
(which leaves a partial final batch) agrees with batch size 1. -/
theorem c2_witness :
    witnessMixturePotential.asRealVoxelGrid (fun t => t) (3, 1, 1) 1 2
      = witnessMixturePotential.asRealVoxelGrid (fun t => t) (3, 1, 1) 1 1 :=
  (c2_batch_size_invariance (fun t => t) (3, 1, 1) 1 2 (by norm_num)
    (by norm_num)).1 1 1 witnessMixturePotential

/-- Claim C3: for every atomic potential, calling `as_real_voxel_grid` with a
batch size outside `[1, Z]` fails with an `InvalidConfiguration` error; no
Gaussian-integral evaluation reaches the result, which is in particular
independent of the error function. -/
theorem c3_batch_size_out_of_range_fails (erf : ℝ → ℝ) (shape : ℕ × ℕ × ℕ)
    (voxelSize : ℝ) (batchSize : ℕ)
    (h : batchSize < 1 ∨ shape.1 < batchSize) :
    (∀ (N G : ℕ) (P : GaussianMixtureAtomicPotential N G),
      P.asRealVoxelGrid erf shape voxelSize batchSize
          = .error .invalidConfiguration
      ∧ ∀ erf2 : ℝ → ℝ, P.asRealVoxelGrid erf shape voxelSize batchSize
          = P.asRealVoxelGrid erf2 shape voxelSize batchSize)
    ∧ (∀ (M : ℕ) (Q : PengAtomicPotential M),
      Q.asRealVoxelGrid erf shape voxelSize batchSize
          = .error .invalidConfiguration
      ∧ ∀ erf2 : ℝ → ℝ, Q.asRealVoxelGrid erf shape voxelSize batchSize
          = Q.asRealVoxelGrid erf2 shape voxelSize batchSize) := by
  have h0 : batchSize = 0 ∨ shape.1 < batchSize := by omega
  constructor
  · intro N G P
    have he : ∀ e : ℝ → ℝ, P.asRealVoxelGrid e shape voxelSize batchSize
        = .error .invalidConfiguration := fun e =>
      buildRealSpaceVoxelPotentialFromAtoms_error e shape voxelSize
        P.atomPositions P.gaussianAmplitudes P.gaussianWidths h0
    exact ⟨he erf, fun erf2 => (he erf).trans (he erf2).symm⟩
  · intro M Q
    have he : ∀ e : ℝ → ℝ, Q.asRealVoxelGrid e shape voxelSize batchSize
        = .error .invalidConfiguration := fun e =>
      buildRealSpaceVoxelPotentialFromAtoms_error e shape voxelSize
        Q.atomPositions Q.scatteringFactorA _ h0
    exact ⟨he erf, fun erf2 => (he erf).trans (he erf2).symm⟩

/-- Witness for C3 at a concrete input: batch size 0 on a 2-plane grid fails
with `invalidConfiguration`. -/
theorem c3_witness :
    witnessMixturePotential.asRealVoxelGrid (fun t => t) (2, 1, 1) 1 0
      = .error .invalidConfiguration :=
  ((c3_batch_size_out_of_range_fails (fun t => t) (2, 1, 1) 1 0
    (Or.inl (by norm_num))).1 1 1 witnessMixturePotential).1

/-- Claim C4: `as_real_voxel_grid` is deterministic (the same atom positions,
amplitudes, widths, shape, voxel size and batch size always give the same
grid), invariant under any permutation of the atom ordering, and the grid
computed from `N` atoms equals the elementwise sum of the `N` grids computed
from each atom alone on the same grid geometry. -/
theorem c4_deterministic_permutation_invariant_additive (erf : ℝ → ℝ)
    (shape : ℕ × ℕ × ℕ) (voxelSize : ℝ) (batchSize : ℕ)
    (hbs1 : 1 ≤ batchSize) (hbs2 : batchSize ≤ shape.1) :
    (∀ (N G : ℕ) (P : GaussianMixtureAtomicPotential N G),
      P.asRealVoxelGrid erf shape voxelSize batchSize
        = P.asRealVoxelGrid erf shape voxelSize batchSize)
    ∧ (∀ (N G : ℕ) (pos : Fin N → Fin 3 → ℝ) (a b : Fin N → Fin G → ℝ)
        (σ : Equiv.Perm (Fin N)),
      GaussianMixtureAtomicPotential.asRealVoxelGrid erf
          ⟨fun n => pos (σ n), fun n => a (σ n), fun n => b (σ n)⟩
          shape voxelSize batchSize
        = GaussianMixtureAtomicPotential.asRealVoxelGrid erf ⟨pos, a, b⟩
          shape voxelSize batchSize)
    ∧ (∀ (N G : ℕ) (pos : Fin N → Fin 3 → ℝ) (a b : Fin N → Fin G → ℝ)
        (g : ℕ → ℕ → ℕ → ℝ) (gn : Fin N → ℕ → ℕ → ℕ → ℝ),
      GaussianMixtureAtomicPotential.asRealVoxelGrid erf ⟨pos, a, b⟩
          shape voxelSize batchSize = .ok g →
      (∀ n : Fin N,
        GaussianMixtureAtomicPotential.asRealVoxelGrid erf
          ⟨fun _ : Fin 1 => pos n, fun _ => a n, fun _ => b n⟩
          shape voxelSize batchSize = .ok (gn n)) →
      ∀ z y x, g z y x = ∑ n : Fin N, gn n z y x) := by
  refine ⟨fun N G P => rfl, fun N G pos a b σ => ?_, fun N G pos a b g gn hg hgn z y x => ?_⟩
  · unfold GaussianMixtureAtomicPotential.asRealVoxelGrid
    rw [buildRealSpaceVoxelPotentialFromAtoms_ok erf shape voxelSize
        (fun n => pos (σ n)) (fun n => a (σ n)) (fun n => b (σ n)) hbs1 hbs2,
      buildRealSpaceVoxelPotentialFromAtoms_ok erf shape voxelSize pos a b
        hbs1 hbs2]
    congr 1
    funext z y x
    unfold voxelPotentialPlane evaluateGaussianPotentialAtZPlane
    refine Finset.sum_congr rfl fun i _ => ?_
    exact Equiv.sum_comp σ fun n =>
      gaussIntegralAxis erf (make1dCoordinateGrid shape.2.1 voxelSize) pos 1 b
          voxelSize y n i *
        gaussIntegralAxis erf (make1dCoordinateGrid shape.1 voxelSize) pos 2 b
          voxelSize z n i *
        gaussIntegralXTimesPrefactor erf (make1dCoordinateGrid shape.2.2 voxelSize)
          pos a b voxelSize x n i
  · unfold GaussianMixtureAtomicPotential.asRealVoxelGrid at hg hgn
    rw [buildRealSpaceVoxelPotentialFromAtoms_ok erf shape voxelSize pos a b
      hbs1 hbs2] at hg
    injection hg with hg2
    rw [← hg2]
    have hsingle : ∀ n : Fin N, gn n z y x
        = voxelPotentialPlane erf shape voxelSize
            (fun _ : Fin 1 => pos n) (fun _ => a n) (fun _ => b n) z y x := by
      intro n
      have h := hgn n
      rw [buildRealSpaceVoxelPotentialFromAtoms_ok erf shape voxelSize
        (fun _ : Fin 1 => pos n) (fun _ => a n) (fun _ => b n) hbs1 hbs2] at h
      injection h with h2
      rw [← h2]
    simp only [hsingle]
    unfold voxelPotentialPlane evaluateGaussianPotentialAtZPlane
    rw [Finset.sum_comm]
    refine Finset.sum_congr rfl fun n _ => ?_
    rw [Finset.sum_comm]
    simp only [Fin.sum_univ_one]
    rfl

/-- Witness for C4 at a concrete input: the single-atom witness potential at
batch size 1 on a `(1,1,1)` grid; its grid is the sum over the one-element atom
family of the single-atom grids. -/
theorem c4_witness :
    voxelPotentialPlane (fun t => t) (1, 1, 1) 1
        witnessMixturePotential.atomPositions
        witnessMixturePotential.gaussianAmplitudes
        witnessMixturePotential.gaussianWidths 0 0 0
      = ∑ n : Fin 1,
          voxelPotentialPlane (fun t => t) (1, 1, 1) 1
            (fun _ : Fin 1 => witnessMixturePotential.atomPositions n)
            (fun _ => witnessMixturePotential.gaussianAmplitudes n)
            (fun _ => witnessMixturePotential.gaussianWidths n) 0 0 0 :=
  (c4_deterministic_permutation_invariant_additive (fun t => t) (1, 1, 1) 1 1
      (by norm_num) (by norm_num)).2.2 1 1
    witnessMixturePotential.atomPositions
    witnessMixturePotential.gaussianAmplitudes
    witnessMixturePotential.gaussianWidths _ _
    (buildRealSpaceVoxelPotentialFromAtoms_ok (fun t => t) (1, 1, 1) 1
      witnessMixturePotential.atomPositions
      witnessMixturePotential.gaussianAmplitudes
      witnessMixturePotential.gaussianWidths (by norm_num) (by norm_num))
    (fun n => buildRealSpaceVoxelPotentialFromAtoms_ok (fun t => t) (1, 1, 1) 1
      (fun _ : Fin 1 => witnessMixturePotential.atomPositions n)
      (fun _ => witnessMixturePotential.gaussianAmplitudes n)
      (fun _ => witnessMixturePotential.gaussianWidths n)
      (by norm_num) (by norm_num))
    0 0 0

open Classical in
/-- Unfolding `PengAtomicPotential.make` at a `some` B-factor argument. -/
lemma pengAtomicPotentialMake_some_eq {N : ℕ} (pos : Fin N → Fin 3 → ℝ)
    (ids : Fin N → ℕ) (tA tB : ℕ → Fin 5 → ℝ) (B : Fin N → ℝ) :
    PengAtomicPotential.make pos ids tA tB (some B)
      = if ∀ n, 0 ≤ B n then
          .ok ⟨pos, fun n => tA (ids n), fun n => tB (ids n), some B⟩
        else .error .invalidParameter := rfl

/-- Claim C5: parameter validation is construction-time, never deferred to
evaluation.  Constructing a `GaussianMixtureAtomicPotential` with any
non-positive Gaussian width, a `PengAtomicPotential` with any negative
B-factor, or a `WaveTransferFunction` with non-positive defocus or negative
spherical aberration fails with `InvalidParameter` at construction; with all
widths strictly positive, all B-factors non-negative, defocus strictly
positive and spherical aberration non-negative, construction succeeds; and
evaluation (`as_real_voxel_grid` with a valid batch size, and the transfer
function call) performs no such validation: it succeeds for arbitrary
parameter values. -/
theorem c5_construction_time_validation :
    (∀ (N G : ℕ) (pos : Fin N → Fin 3 → ℝ) (amps w : Fin N → Fin G → ℝ),
      (GaussianMixtureAtomicPotential.make pos amps w = .ok ⟨pos, amps, w⟩
        ↔ ∀ n i, 0 < w n i)
      ∧ (¬ (∀ n i, 0 < w n i) →
        GaussianMixtureAtomicPotential.make pos amps w
          = .error .invalidParameter))
    ∧ (∀ (N : ℕ) (pos : Fin N → Fin 3 → ℝ) (ids : Fin N → ℕ)
        (tA tB : ℕ → Fin 5 → ℝ) (B : Fin N → ℝ),
      PengAtomicPotential.make pos ids tA tB none
        = .ok ⟨pos, fun n => tA (ids n), fun n => tB (ids n), none⟩
      ∧ (PengAtomicPotential.make pos ids tA tB (some B)
          = .ok ⟨pos, fun n => tA (ids n), fun n => tB (ids n), some B⟩
        ↔ ∀ n, 0 ≤ B n)
      ∧ (¬ (∀ n, 0 ≤ B n) →
        PengAtomicPotential.make pos ids tA tB (some B)
          = .error .invalidParameter))
    ∧ (∀ d ast ang volt cs : ℝ,
      (WaveTransferFunction.make d ast ang volt cs = .ok ⟨d, ast, ang, volt, cs⟩
        ↔ 0 < d ∧ 0 ≤ cs)
      ∧ (¬ (0 < d ∧ 0 ≤ cs) →
        WaveTransferFunction.make d ast ang volt cs = .error .invalidParameter))
    ∧ (∀ (N G : ℕ) (P : GaussianMixtureAtomicPotential N G) (erf : ℝ → ℝ)
        (shape : ℕ × ℕ × ℕ) (voxelSize : ℝ) (batchSize : ℕ),
      1 ≤ batchSize → batchSize ≤ shape.1 →
      ∃ g, P.asRealVoxelGrid erf shape voxelSize batchSize = .ok g)
    ∧ (∀ (wtf : WaveTransferFunction) (frequency : ℝ × ℝ) (wl : Option ℝ)
        (defocusOffset : ℝ), ∃ phase : ℝ,
      wtf.call frequency wl defocusOffset
        = Complex.exp (Complex.I * (phase : ℂ))) := by
  refine ⟨fun N G pos amps w => ?_, fun N pos ids tA tB B => ?_,
    fun d ast ang volt cs => ?_, fun N G P erf shape voxelSize batchSize h1 h2 => ?_,
    fun wtf frequency wl defocusOffset => ?_⟩
  · unfold GaussianMixtureAtomicPotential.make
    by_cases hw : ∀ n i, 0 < w n i
    · rw [if_pos hw]
      exact ⟨⟨fun _ => hw, fun _ => rfl⟩, fun hc => absurd hw hc⟩
    · rw [if_neg hw]
      exact ⟨⟨fun h => absurd h (by simp), fun h => absurd h hw⟩, fun _ => rfl⟩
  · refine ⟨rfl, ?_⟩
    rw [pengAtomicPotentialMake_some_eq]
    by_cases hB : ∀ n, 0 ≤ B n
    · rw [if_pos hB]
      exact ⟨⟨fun _ => hB, fun _ => rfl⟩, fun hc => absurd hB hc⟩
    · rw [if_neg hB]
      exact ⟨⟨fun h => absurd h (by simp), fun h => absurd h hB⟩, fun _ => rfl⟩
  · unfold WaveTransferFunction.make
    by_cases hd : 0 < d
    · rw [if_pos hd]
      by_cases hcs : 0 ≤ cs
      · rw [if_pos hcs]
        exact ⟨⟨fun _ => ⟨hd, hcs⟩, fun _ => rfl⟩, fun hc => absurd ⟨hd, hcs⟩ hc⟩
      · rw [if_neg hcs]
        exact ⟨⟨fun h => absurd h (by simp), fun h => absurd h.2 hcs⟩,
          fun _ => rfl⟩
    · rw [if_neg hd]
      exact ⟨⟨fun h => absurd h (by simp), fun h => absurd h.1 hd⟩, fun _ => rfl⟩
  · exact ⟨voxelPotentialPlane erf shape voxelSize P.atomPositions
        P.gaussianAmplitudes P.gaussianWidths,
      buildRealSpaceVoxelPotentialFromAtoms_ok erf shape voxelSize
        P.atomPositions P.gaussianAmplitudes P.gaussianWidths h1 h2⟩
  · exact ⟨_, rfl⟩

/-- Witness for C5 at concrete inputs: width 1 is accepted, width 0 is
rejected; defocus 1 with zero aberration is accepted. -/
theorem c5_witness :
    GaussianMixtureAtomicPotential.make (fun (_ : Fin 1) (_ : Fin 3) => (0 : ℝ))
        (fun (_ : Fin 1) (_ : Fin 1) => (1 : ℝ)) (fun _ _ => 1)
      = .ok ⟨fun _ _ => 0, fun _ _ => 1, fun _ _ => 1⟩
    ∧ GaussianMixtureAtomicPotential.make (fun (_ : Fin 1) (_ : Fin 3) => (0 : ℝ))
        (fun (_ : Fin 1) (_ : Fin 1) => (1 : ℝ)) (fun _ _ => 0)
      = .error .invalidParameter
    ∧ WaveTransferFunction.make 1 0 0 300 0 = .ok ⟨1, 0, 0, 300, 0⟩ := by
  refine ⟨?_, ?_, ?_⟩
  · exact (c5_construction_time_validation.1 1 1 (fun _ _ => 0) (fun _ _ => 1)
      (fun _ _ => 1)).1.mpr (fun _ _ => by norm_num)
  · exact (c5_construction_time_validation.1 1 1 (fun _ _ => 0) (fun _ _ => 1)
      (fun _ _ => 0)).2 (by
        intro h
        have := h 0 0
        norm_num at this)
  · exact (c5_construction_time_validation.2.2.1 1 0 0 300 0).1.mpr
      ⟨by norm_num, le_refl 0⟩

/-- A concrete integrator whose integration produces a complex-valued
real-space field (`is_integration_complex = true`), over the trivial potential
type, shared by the C6 statements. -/
def complexFieldIntegrator : PotentialIntegrator Unit :=
  ⟨true, fun _ _ _ _ => 0⟩

/-- A concrete structural ensemble over the trivial potential type. -/
def trivialEnsemble : StructuralEnsemble Unit :=
  ⟨⟨0, fun _ => 1⟩, ()⟩

/-- A concrete contrast transfer theory (identically zero output). -/
def trivialTransferTheory : ContrastTransferTheory :=
  ⟨fun _ _ _ _ _ => 0⟩

/-- Counterexample to claim C6 as stated: constructing a
`LinearSuperpositionScatteringTheory` with an integrator whose integration is
complex-valued succeeds — the class defines no construction-time check — so
the claimed `IncompatibleStrategy` construction failure does not occur. -/
theorem c6_counterexample :
    LinearSuperpositionScatteringTheory.make (K := 1)
        (fun _ => trivialEnsemble) complexFieldIntegrator trivialTransferTheory
      = .ok ⟨fun _ => trivialEnsemble, complexFieldIntegrator,
          trivialTransferTheory⟩
    ∧ LinearSuperpositionScatteringTheory.make (K := 1)
        (fun _ => trivialEnsemble) complexFieldIntegrator trivialTransferTheory
      ≠ .error .incompatibleStrategy := by
  exact ⟨rfl, by simp [LinearSuperpositionScatteringTheory.make]⟩

/-- Claim C6 as amended: constructing a `WeakPhaseScatteringTheory` with a
complex-field-producing integrator fails at construction with
`IncompatibleStrategy`, and succeeds with a real-field-producing integrator;
`LinearSuperpositionScatteringTheory` performs no such construction-time
check — its construction succeeds for every integrator. -/
theorem c6_weak_phase_construction_check (P : Type) :
    (∀ (ens : StructuralEnsemble P) (integ : PotentialIntegrator P)
        (tt : ContrastTransferTheory),
      (integ.isIntegrationComplex = true →
        WeakPhaseScatteringTheory.make ens integ tt
          = .error .incompatibleStrategy)
      ∧ (integ.isIntegrationComplex = false →
        WeakPhaseScatteringTheory.make ens integ tt = .ok ⟨ens, integ, tt⟩))
    ∧ (∀ (K : ℕ) (subunits : Fin K → StructuralEnsemble P)
        (integ : PotentialIntegrator P) (tt : ContrastTransferTheory),
      LinearSuperpositionScatteringTheory.make subunits integ tt
        = .ok ⟨subunits, integ, tt⟩) := by
  refine ⟨fun ens integ tt => ⟨fun h => ?_, fun h => ?_⟩,
    fun K subunits integ tt => rfl⟩
  · unfold WeakPhaseScatteringTheory.make
    rw [if_pos h]
  · unfold WeakPhaseScatteringTheory.make
    rw [if_neg (by rw [h]; exact Bool.false_ne_true)]

/-- Witness for the amended C6 at concrete inputs: the complex-field integrator
is rejected by `WeakPhaseScatteringTheory` and accepted by
`LinearSuperpositionScatteringTheory`. -/
theorem c6_witness :
    WeakPhaseScatteringTheory.make trivialEnsemble complexFieldIntegrator
        trivialTransferTheory
      = .error .incompatibleStrategy
    ∧ LinearSuperpositionScatteringTheory.make (K := 2)
        (fun _ => trivialEnsemble) complexFieldIntegrator trivialTransferTheory
      = .ok ⟨fun _ => trivialEnsemble, complexFieldIntegrator,
          trivialTransferTheory⟩ :=
  ⟨((c6_weak_phase_construction_check Unit).1 trivialEnsemble
      complexFieldIntegrator trivialTransferTheory).1 rfl,
    (c6_weak_phase_construction_check Unit).2 2 (fun _ => trivialEnsemble)
      complexFieldIntegrator trivialTransferTheory⟩

/-- Claim C7: for every weak-phase scattering theory (the single-specimen
theory and the linear-superposition theory), the intensity spectrum at the
detector plane equals twice the contrast spectrum at every frequency bin
except the zero bin, and at the `(0,0)` (DC) bin equals twice the contrast
plus the padded pixel count `N1·N2`. -/
theorem c7_intensity_spectrum_from_contrast (P : Type) (K : ℕ)
    (T : WeakPhaseScatteringTheory P)
    (S : LinearSuperpositionScatteringTheory P K)
    (instrumentConfig : InstrumentConfig) (i j : ℕ) (h : ¬(i = 0 ∧ j = 0)) :
    (T.computeIntensitySpectrumAtDetectorPlane instrumentConfig i j
        = 2 * T.computeContrastSpectrumAtDetectorPlane instrumentConfig i j
      ∧ T.computeIntensitySpectrumAtDetectorPlane instrumentConfig 0 0
        = 2 * T.computeContrastSpectrumAtDetectorPlane instrumentConfig 0 0
          + (instrumentConfig.paddedShape.1 : ℂ)
              * (instrumentConfig.paddedShape.2 : ℂ))
    ∧ (S.computeIntensitySpectrumAtDetectorPlane instrumentConfig i j
        = 2 * S.computeContrastSpectrumAtDetectorPlane instrumentConfig i j
      ∧ S.computeIntensitySpectrumAtDetectorPlane instrumentConfig 0 0
        = 2 * S.computeContrastSpectrumAtDetectorPlane instrumentConfig 0 0
          + (instrumentConfig.paddedShape.1 : ℂ)
              * (instrumentConfig.paddedShape.2 : ℂ)) := by
  unfold WeakPhaseScatteringTheory.computeIntensitySpectrumAtDetectorPlane
    LinearSuperpositionScatteringTheory.computeIntensitySpectrumAtDetectorPlane
    computeIntensitySpectrumFromContrast addAtIndex
  exact ⟨⟨by rw [if_neg h], by rw [if_pos ⟨rfl, rfl⟩]⟩,
    ⟨by rw [if_neg h], by rw [if_pos ⟨rfl, rfl⟩]⟩⟩

/-- A concrete real-field integrator over the trivial potential type. -/
def realFieldIntegrator : PotentialIntegrator Unit :=
  ⟨false, fun _ _ _ _ => 1⟩

/-- A concrete instrument configuration with padded shape `(2, 2)`. -/
noncomputable def witnessConfig : InstrumentConfig :=
  ⟨(2, 2), 1, fun _ _ => (0, 0), fun _ _ => (0, 0)⟩

/-- Witness for C7 at a concrete input: the `(1, 0)` bin of a concrete
single-specimen weak-phase theory is twice the contrast there. -/
theorem c7_witness :
    (⟨trivialEnsemble, realFieldIntegrator, trivialTransferTheory⟩ :
        WeakPhaseScatteringTheory Unit).computeIntensitySpectrumAtDetectorPlane
        witnessConfig 1 0
      = 2 * (⟨trivialEnsemble, realFieldIntegrator, trivialTransferTheory⟩ :
        WeakPhaseScatteringTheory Unit).computeContrastSpectrumAtDetectorPlane
        witnessConfig 1 0 :=
  ((c7_intensity_spectrum_from_contrast Unit 1
    ⟨trivialEnsemble, realFieldIntegrator, trivialTransferTheory⟩
    ⟨fun _ => trivialEnsemble, realFieldIntegrator, trivialTransferTheory⟩
    witnessConfig 1 0 (by simp)).1).1

/-- Claim C8: for every valid `WaveTransferFunction` (positive defocus,
non-negative spherical aberration), every frequency, wavelength argument and
defocus offset, the evaluated transfer function is `exp(i·phase)` for a real
aberration phase and hence has modulus exactly 1; and applying the wave
transfer theory multiplies this transfer function, evaluated on the
configured padded full frequency grid, elementwise onto the input field. -/
theorem c8_wave_transfer_unit_modulus (wtf : WaveTransferFunction)
    (T : WaveTransferTheory) (hd : 0 < wtf.defocusInAngstroms)
    (hcs : 0 ≤ wtf.sphericalAberrationInMm) (frequency : ℝ × ℝ)
    (wl : Option ℝ) (defocusOffset : ℝ) (field : ℕ → ℕ → ℂ)
    (instrumentConfig : InstrumentConfig) (y x : ℕ) :
    Complex.abs (wtf.call frequency wl defocusOffset) = 1
    ∧ T.call field instrumentConfig defocusOffset y x
      = T.wtf.call (instrumentConfig.paddedFullFrequencyGrid y x)
          (some instrumentConfig.wavelengthInAngstroms) defocusOffset
        * field y x := by
  constructor
  · unfold WaveTransferFunction.call
    rw [Complex.abs_exp]
    norm_num [Complex.mul_re, Complex.I_re, Complex.I_im, Complex.ofReal_re,
      Complex.ofReal_im]
  · rfl

/-- A concrete valid wave transfer function: defocus 1 Å, no astigmatism,
300 kV, zero spherical aberration. -/
noncomputable def witnessWtf : WaveTransferFunction := ⟨1, 0, 0, 300, 0⟩

/-- Witness for C8 at a concrete input: the concrete transfer function has
modulus 1 at the zero frequency with no defocus offset. -/
theorem c8_witness :
    Complex.abs (witnessWtf.call (0, 0) none 0) = 1 :=
  (c8_wave_transfer_unit_modulus witnessWtf ⟨witnessWtf⟩
    (by norm_num [witnessWtf]) (by norm_num [witnessWtf]) (0, 0) none 0
    (fun _ _ => 0) witnessConfig 0 0).1

/-- Claim C9: `LinearSuperpositionScatteringTheory` computes the exit-plane
(and detector-plane) spectrum of an assembly as the coherent sum of the
independently computed per-subunit fields; in particular for a batch of `K`
identical copies of the base potential at the same pose and conformation, the
exit-plane spectrum equals `K` times the single-copy exit-plane field (and the
detector-plane contrast equals `K` times the single-copy contrast). -/
theorem c9_linear_superposition_coherent_sum (P : Type) (K : ℕ)
    (T : LinearSuperpositionScatteringTheory P K)
    (instrumentConfig : InstrumentConfig) (e : StructuralEnsemble P)
    (he : ∀ k, T.assemblySubunits k = e) :
    (∀ y x, T.computeObjectSpectrumAtExitPlane instrumentConfig y x
        = ∑ k : Fin K,
            computePhaseShiftSpectrumFromScatteringPotential
              (T.assemblySubunits k) T.potentialIntegrator instrumentConfig y x)
    ∧ (∀ y x, T.computeContrastSpectrumAtDetectorPlane instrumentConfig y x
        = ∑ k : Fin K,
            T.transferTheory.apply
              (computePhaseShiftSpectrumFromScatteringPotential
                (T.assemblySubunits k) T.potentialIntegrator instrumentConfig)
              instrumentConfig 0 y x)
    ∧ (∀ y x, T.computeObjectSpectrumAtExitPlane instrumentConfig y x
        = (K : ℂ) * computePhaseShiftSpectrumFromScatteringPotential e
            T.potentialIntegrator instrumentConfig y x)
    ∧ (∀ y x, T.computeContrastSpectrumAtDetectorPlane instrumentConfig y x
        = (K : ℂ) * T.transferTheory.apply
            (computePhaseShiftSpectrumFromScatteringPotential e
              T.potentialIntegrator instrumentConfig)
            instrumentConfig 0 y x) := by
  refine ⟨fun y x => rfl, fun y x => rfl, fun y x => ?_, fun y x => ?_⟩
  · unfold LinearSuperpositionScatteringTheory.computeObjectSpectrumAtExitPlane
    rw [Finset.sum_congr rfl fun k _ => by rw [he k]]
    rw [Finset.sum_const, Finset.card_univ, Fintype.card_fin, nsmul_eq_mul]
  · unfold
      LinearSuperpositionScatteringTheory.computeContrastSpectrumAtDetectorPlane
    rw [Finset.sum_congr rfl fun k _ => by rw [he k]]
    rw [Finset.sum_const, Finset.card_univ, Fintype.card_fin, nsmul_eq_mul]

/-- Witness for C9 at a concrete input: three identical copies of the trivial
ensemble give three times the single-copy exit-plane field at the `(0,0)`
bin. -/
theorem c9_witness :
    (⟨fun _ => trivialEnsemble, realFieldIntegrator, trivialTransferTheory⟩ :
        LinearSuperpositionScatteringTheory Unit 3).computeObjectSpectrumAtExitPlane
        witnessConfig 0 0
      = (3 : ℂ) * computePhaseShiftSpectrumFromScatteringPotential
          trivialEnsemble realFieldIntegrator witnessConfig 0 0 :=
  (c9_linear_superposition_coherent_sum Unit 3
    ⟨fun _ => trivialEnsemble, realFieldIntegrator, trivialTransferTheory⟩
    witnessConfig trivialEnsemble (fun _ => rfl)).2.2.1 0 0

/-- Claim C10: in
`LinearSuperpositionScatteringTheory.compute_contrast_spectrum_at_detector_plane`
every per-subunit contrast is computed by applying the transfer theory with
defocus offset 0 — so the result is unchanged when the subunit poses'
out-of-plane offsets change (all other data equal) — unlike the
single-specimen `WeakPhaseScatteringTheory`, whose detector-plane path passes
the specimen pose's z-offset as the defocus offset to the transfer theory. -/
theorem c10_superposition_ignores_defocus_offset (P : Type) (K : ℕ)
    (T U : LinearSuperpositionScatteringTheory P K)
    (W : WeakPhaseScatteringTheory P) (instrumentConfig : InstrumentConfig)
    (hInteg : U.potentialIntegrator = T.potentialIntegrator)
    (hTT : U.transferTheory = T.transferTheory)
    (hShifts : ∀ k, (U.assemblySubunits k).pose.computeShifts
      = (T.assemblySubunits k).pose.computeShifts)
    (hPot : ∀ k, (U.assemblySubunits k).potentialInLabFrame
      = (T.assemblySubunits k).potentialInLabFrame) :
    (T.computeContrastSpectrumAtDetectorPlane instrumentConfig
      = fun y x =>
          ∑ k : Fin K,
            T.transferTheory.apply
              (computePhaseShiftSpectrumFromScatteringPotential
                (T.assemblySubunits k) T.potentialIntegrator instrumentConfig)
              instrumentConfig 0 y x)
    ∧ (U.computeContrastSpectrumAtDetectorPlane instrumentConfig
        = T.computeContrastSpectrumAtDetectorPlane instrumentConfig)
    ∧ (W.computeContrastSpectrumAtDetectorPlane instrumentConfig
        = W.transferTheory.apply
            (W.computeObjectSpectrumAtExitPlane instrumentConfig)
            instrumentConfig
            W.structuralEnsemble.pose.offsetZInAngstroms) := by
  refine ⟨rfl, ?_, rfl⟩
  unfold
    LinearSuperpositionScatteringTheory.computeContrastSpectrumAtDetectorPlane
  funext y x
  rw [hInteg, hTT]
  refine Finset.sum_congr rfl fun k _ => ?_
  have hphase : computePhaseShiftSpectrumFromScatteringPotential
      (U.assemblySubunits k) T.potentialIntegrator instrumentConfig
    = computePhaseShiftSpectrumFromScatteringPotential
      (T.assemblySubunits k) T.potentialIntegrator instrumentConfig := by
    unfold computePhaseShiftSpectrumFromScatteringPotential
    rw [hShifts k, hPot k]
  rw [hphase]

/-- A second trivial ensemble differing from `trivialEnsemble` only in the
pose's out-of-plane offset. -/
def trivialEnsembleShifted : StructuralEnsemble Unit :=
  ⟨⟨7, fun _ => 1⟩, ()⟩

/-- Witness for C10 at a concrete input: shifting each subunit pose's
out-of-plane offset from 0 to 7 leaves the superposition contrast spectrum
unchanged. -/
theorem c10_witness :
    (⟨fun _ => trivialEnsembleShifted, realFieldIntegrator,
        trivialTransferTheory⟩ :
        LinearSuperpositionScatteringTheory Unit 2).computeContrastSpectrumAtDetectorPlane
        witnessConfig
      = (⟨fun _ => trivialEnsemble, realFieldIntegrator,
        trivialTransferTheory⟩ :
        LinearSuperpositionScatteringTheory Unit 2).computeContrastSpectrumAtDetectorPlane
        witnessConfig :=
  (c10_superposition_ignores_defocus_offset Unit 2
    ⟨fun _ => trivialEnsemble, realFieldIntegrator, trivialTransferTheory⟩
    ⟨fun _ => trivialEnsembleShifted, realFieldIntegrator,
      trivialTransferTheory⟩
    ⟨trivialEnsemble, realFieldIntegrator, trivialTransferTheory⟩
    witnessConfig rfl rfl (fun _ => rfl) (fun _ => rfl)).2.1

end Cryojax
